import Mathlib

/-!
Verification development for the Anthos-ai bank-chatbot backend.

Shallow embedding of the core request-processing pipeline:
* `controller.js` — `testConnection`, `getTransactionData`, `formatDate`,
  `formatCurrency`, `getLastFour`;
* `index.js` — `filterTransactions`, `processTransactionDataForAI`.

Modelling conventions:
* JS numbers are modelled as rationals (`Rat`); `NaN` is modelled explicitly
  (as `JSVal.nan` for raw values, `Option Rat = none` for parse results).
* JS strings are Lean `String`s; string operations are implemented over
  `List Char` so that everything reduces in the kernel.
* Timestamps are epoch milliseconds (`Int`); the external JS `Date` library is
  modelled by explicit proleptic-Gregorian (UTC) calendar conversions.
* Database queries are external: the ledger `SELECT ... ORDER BY timestamp
  DESC` is modelled as filtering plus a stable descending sort, and the
  results of the two queries are passed to `getTransactionData` as explicit
  arguments (`Except` for the essential ledger query, `Option` for the
  identity query whose rejection is tolerated).
-/

/-- A JavaScript value as it can reach the small utility functions:
a (non-NaN) number, a string, `undefined`/`null`, or `NaN`. -/
inductive JSVal where
  | num (q : Rat)
  | str (s : String)
  | undef
  | nan
deriving DecidableEq

/-- JS truthiness of a value: `0`, `""`, `undefined`/`null` and `NaN` are falsy. -/
def jsTruthy : JSVal → Bool
  | .num q => q != 0
  | .str s => s != ""
  | .undef => false
  | .nan => false

/-- JS truthiness of an optional string (`undefined` and `""` are falsy). -/
def truthy : Option String → Bool
  | none => false
  | some s => s != ""

/-- `String.toLowerCase()` (ASCII case fold, as used on account identifiers). -/
def jsToLower (s : String) : String :=
  String.mk (s.toList.map Char.toLower)

/-- JS whitespace for `trim`. -/
def jsIsWS (c : Char) : Bool :=
  c == ' ' || c == '\t' || c == '\n' || c == '\r'

/-- `String.trim()`: strip whitespace from both ends. -/
def jsTrim (s : String) : String :=
  String.mk (((s.toList.dropWhile jsIsWS).reverse.dropWhile jsIsWS).reverse)

/-- Does the second list start with the first one? -/
def leadsWith : List Char → List Char → Bool
  | [], _ => true
  | _ :: _, [] => false
  | a :: as, b :: bs => a == b && leadsWith as bs

/-- Contiguous-subsequence test on character lists. -/
def containsSeq : List Char → List Char → Bool
  | needle, [] => needle.isEmpty
  | needle, b :: bs => leadsWith needle (b :: bs) || containsSeq needle bs

/-- `String.includes(sub)`. -/
def jsIncludes (hay sub : String) : Bool :=
  containsSeq sub.toList hay.toList

/-- Numeric value of an ASCII digit character, if it is one. -/
def digitVal (c : Char) : Option Nat :=
  if '0' ≤ c && c ≤ '9' then some (c.toNat - 48) else none

/-- Split a leading run of digits off a character list, returning their values. -/
def takeDigits : List Char → List Nat × List Char
  | [] => ([], [])
  | c :: cs =>
    match digitVal c with
    | some d =>
      let r := takeDigits cs
      (d :: r.1, r.2)
    | none => ([], c :: cs)

/-- Value of a big-endian list of decimal digits. -/
def natOfDigits (ds : List Nat) : Nat :=
  ds.foldl (fun a d => a * 10 + d) 0

/-- Split an optional leading sign off the character list. -/
def jsSignSplit (l : List Char) : Int × List Char :=
  match l with
  | [] => (1, [])
  | c :: rest =>
    if c == '-' then (-1, rest)
    else if c == '+' then (1, rest)
    else (1, c :: rest)

/-- The fractional digits: consumed only after a leading decimal point. -/
def jsFracPart (l : List Char) : List Nat :=
  match l with
  | [] => []
  | c :: rest => if c == '.' then (takeDigits rest).1 else []

/-- The digits-and-point part of `parseFloat`, after the sign has been split
off: integer digits, then an optional point with fractional digits; `none`
models `NaN` when no digit at all is found. -/
def jsParseFloatTail (sgn : Int) (l : List Char) : Option Rat :=
  if (takeDigits l).1.isEmpty && (jsFracPart (takeDigits l).2).isEmpty then none
  else
    some ((sgn : Rat) * ((natOfDigits (takeDigits l).1 : Rat) +
      (natOfDigits (jsFracPart (takeDigits l).2) : Rat) /
        ((10 : Rat) ^ (jsFracPart (takeDigits l).2).length)))

/-- JS `parseFloat` on a string: skip leading whitespace, optional sign,
integer digits, optional fractional digits; `none` models `NaN` when no digit
is found.  (Exponent notation is not modelled; no caller produces it.) -/
def jsParseFloatStr (s : String) : Option Rat :=
  jsParseFloatTail (jsSignSplit (s.toList.dropWhile jsIsWS)).1
    (jsSignSplit (s.toList.dropWhile jsIsWS)).2

/-- JS `parseFloat` on an arbitrary value; `none` models `NaN`. -/
def jsParseFloat : JSVal → Option Rat
  | .num q => some q
  | .str s => jsParseFloatStr s
  | .undef => none
  | .nan => none

/-- A decimal digit character (callers pass values `< 10`). -/
def digitChar (d : Nat) : Char :=
  match d with
  | 0 => '0' | 1 => '1' | 2 => '2' | 3 => '3' | 4 => '4'
  | 5 => '5' | 6 => '6' | 7 => '7' | 8 => '8' | _ => '9'

/-- Big-endian decimal digits of a natural number (`fuel`-bounded recursion;
callers pass `fuel = n + 1`, which suffices since `n / 10 < n`). -/
def natDigits : Nat → Nat → List Char
  | 0, _ => []
  | fuel + 1, n =>
    if n < 10 then [digitChar n]
    else natDigits fuel (n / 10) ++ [digitChar (n % 10)]

/-- Decimal rendering of a natural number. -/
def natStr (n : Nat) : String :=
  String.mk (natDigits (n + 1) n)

/-- Two-digit zero-padded rendering (as a character list) of `m < 100`. -/
def pad2 (m : Nat) : List Char :=
  if m < 10 then ['0', digitChar m]
  else [digitChar (m / 10), digitChar (m % 10)]

/-- `Number.prototype.toFixed(2)`: take the sign off, round `|q| * 100` to the
nearest integer (ties up), and render with exactly two digits after the
point.  (`Rat.floor` is used rather than `⌊·⌋` so the definition reduces in
the kernel; they agree by `Rat.floor_def`.) -/
def toFixed2 (q : Rat) : String :=
  let sgn : List Char := if q < 0 then ['-'] else []
  let x : Rat := if q < 0 then -q else q
  let n : Nat := (Rat.floor (x * 100 + 1 / 2)).toNat
  String.mk (sgn ++ natDigits (n / 100 + 1) (n / 100) ++ '.' :: pad2 (n % 100))

/-- The numeric value denoted by the string `toFixed2 q` renders: the signed
rounding of `q` to two decimal places. -/
def toFixed2Val (q : Rat) : Rat :=
  (if q < 0 then -((Rat.floor ((-q) * 100 + 1 / 2) : Int) : Rat)
   else ((Rat.floor (q * 100 + 1 / 2) : Int) : Rat)) / 100

/-- `formatCurrency` (controller.js): `parseFloat` the input and render it with
`toFixed(2)`, with `"0.00"` for anything that parses to `NaN`. -/
def formatCurrency (amount : JSVal) : String :=
  match jsParseFloat amount with
  | none => "0.00"
  | some q => toFixed2 q

/-- Does a string contain a decimal point with exactly two digits after it? -/
def hasTwoDecimals (s : String) : Bool :=
  decide ('.' ∈ s.toList) &&
    ((s.toList.reverse.takeWhile (fun c => c != '.')).length == 2)

/-- `getLastFour` (controller.js): mask for anything that is not a non-empty
string, otherwise `slice(-4)` (which returns the whole string when it is
shorter than four characters). -/
def getLastFour : JSVal → String
  | .str s => if s == "" then "****" else String.mk (s.toList.drop (s.toList.length - 4))
  | _ => "****"

/-! ## Calendar arithmetic (the external JS `Date` library, at UTC)

`toISOString` and the parse of the `YYYY-MM-DD` tool-schema date strings are
modelled with the standard proleptic-Gregorian civil-from-days / days-from-civil
conversions on epoch days. -/

/-- Civil date `(year, month, day)` of an epoch day number. -/
def civilFromDays (z0 : Int) : Int × Nat × Nat :=
  let z : Int := z0 + 719468
  let era : Int := Int.fdiv z 146097
  let doe : Nat := (z - era * 146097).toNat
  let yoe : Nat := (doe - doe / 1460 + doe / 36524 - doe / 146096) / 365
  let y : Int := (yoe : Int) + era * 400
  let doy : Nat := doe - (365 * yoe + yoe / 4 - yoe / 100)
  let mp : Nat := (5 * doy + 2) / 153
  let d : Nat := doy - (153 * mp + 2) / 5 + 1
  let m : Nat := if mp < 10 then mp + 3 else mp - 9
  (if m ≤ 2 then y + 1 else y, m, d)

/-- Epoch day number of a civil date. -/
def daysFromCivil (y : Int) (m d : Nat) : Int :=
  let y2 : Int := if m ≤ 2 then y - 1 else y
  let era : Int := Int.fdiv y2 400
  let yoe : Nat := (y2 - era * 400).toNat
  let mp : Nat := if 2 < m then m - 3 else m + 9
  let doy : Nat := (153 * mp + 2) / 5 + d - 1
  let doe : Nat := yoe * 365 + yoe / 4 - yoe / 100 + doy
  era * 146097 + (doe : Int) - 719468

/-- Zero-left-padded rendering of a year (non-negative years suffice here). -/
def pad4Str (y : Int) : String :=
  let ds := natDigits (y.toNat + 1) y.toNat
  String.mk (List.replicate (4 - ds.length) '0' ++ ds)

/-- `new Date(ms).toISOString().split("T")[0]`: the UTC `YYYY-MM-DD` of an
epoch-millisecond timestamp. -/
def isoOfMs (t : Int) : String :=
  let c := civilFromDays (Int.fdiv t 86400000)
  pad4Str c.1 ++ "-" ++ String.mk (pad2 c.2.1) ++ "-" ++ String.mk (pad2 c.2.2)

/-- `formatDate` (controller.js).  `row.timestamp` reaches it as a `Date`
object, which is always truthy, so the `!date` guard is never taken for the
rows modelled here; the conversion is `toISOString().split("T")[0]`. -/
def formatDate (t : Int) : String := isoOfMs t

/-- Parse a `YYYY-MM-DD` tool-schema date string to the epoch milliseconds of
its UTC midnight; `none` models an invalid `Date` (whose comparisons are all
false). -/
def parseIsoDate (s : String) : Option Int :=
  match s.toList with
  | [y1, y2, y3, y4, h1, m1, m2, h2, d1, d2] =>
    if h1 == '-' && h2 == '-' then
      match digitVal y1, digitVal y2, digitVal y3, digitVal y4 with
      | some a, some b, some c, some d =>
        match digitVal m1, digitVal m2, digitVal d1, digitVal d2 with
        | some e, some f, some g, some h =>
          some (86400000 * daysFromCivil ((((a * 10 + b) * 10 + c) * 10 + d : Nat) : Int)
            (e * 10 + f) (g * 10 + h))
        | _, _, _, _ => none
      | _, _, _, _ => none
    else none
  | _ => none

/-! ## The transaction fetcher (controller.js, `getTransactionData`) -/

/-- A row of the ledger `transactions` table as returned by the query
`SELECT timestamp, amount, from_acct, to_acct ...`.  `timestamp` is epoch
milliseconds; `amount` is the raw column value (text/numeric, possibly
null/invalid); the account columns may be null. -/
structure LedgerRow where
  timestamp : Int
  amount : JSVal
  from_acct : Option String
  to_acct : Option String
deriving DecidableEq

/-- A row of the identity store `users` table. -/
structure UserRow where
  firstname : String
  lastname : String
deriving DecidableEq

/-- A normalized transaction record as built by `getTransactionData`.
`description`, `category` and `transactionType` are never assigned by the
normalization (reading them yields `undefined`, i.e. `none`); `balance` and
`formattedBalance` are `none` until the running-balance pass assigns them. -/
structure ProcessedTx where
  transactionDate : Int
  formattedDate : String
  amount : Rat
  fromAccount : String
  toAccount : String
  type : String
  fromAccountLastFour : String
  toAccountLastFour : String
  formattedAmount : String
  description : Option String := none
  category : Option String := none
  transactionType : Option String := none
  balance : Option Rat := none
  formattedBalance : Option String := none
deriving DecidableEq

/-- The value `getTransactionData` resolves with.  (The wall-clock
`timestamp: new Date().toISOString()` field is nondeterministic and omitted.) -/
structure TxData where
  accountOwner : String
  accountNumber : String
  transactions : List ProcessedTx
deriving DecidableEq

/-- Lift a nullable string column to a `JSVal` (for `getLastFour`). -/
def jsOfOptStr : Option String → JSVal
  | none => .undef
  | some s => .str s

/-- The per-row normalization step of `getTransactionData`:
`parseFloat(row.amount || 0)`, direction by exact match of `from_acct` against
the requested account, redaction and formatting. -/
def processRow (accountId : String) (row : LedgerRow) : ProcessedTx :=
  let amountP : Option Rat :=
    jsParseFloat (if jsTruthy row.amount then row.amount else .num 0)
  let isDebit : Bool := row.from_acct == some accountId
  { transactionDate := row.timestamp
    formattedDate := formatDate row.timestamp
    -- amount: isNaN(amount) ? 0 : amount
    amount := match amountP with | none => 0 | some q => q
    fromAccount := row.from_acct.getD ""   -- row.from_acct || ""
    toAccount := row.to_acct.getD ""       -- row.to_acct || ""
    type := if isDebit then "Debit" else "Credit"
    fromAccountLastFour := getLastFour (jsOfOptStr row.from_acct)
    toAccountLastFour := getLastFour (jsOfOptStr row.to_acct)
    -- formattedAmount: formatCurrency(amount) on the raw parseFloat result
    formattedAmount := formatCurrency (match amountP with | none => .nan | some q => .num q) }

/-- The running-balance pass of `getTransactionData`: fold over the list in
its given order, adding the signed amount (negative when this account is the
source) and attaching the accumulated balance to each record. -/
def assignBalances (accountId : String) : Rat → List ProcessedTx → List ProcessedTx
  | _, [] => []
  | bal, tx :: rest =>
    let isDebit : Bool := tx.fromAccount == accountId
    let bal2 : Rat := bal + (if isDebit then -tx.amount else tx.amount)
    { tx with balance := some bal2,
              formattedBalance := some (formatCurrency (.num bal2)) }
      :: assignBalances accountId bal2 rest

/-- `getTransactionData` (controller.js), after the connection probes: takes
the settled results of the two concurrent queries.  A rejected ledger query
fails the whole operation (re-wrapped by the surrounding catch); a rejected or
empty identity query degrades to empty names.  The `!accountId` guard throws
for the empty account id. -/
def getTransactionData (accountId : String)
    (transactionResult : Except String (List LedgerRow))
    (userResult : Option (List UserRow)) : Except String TxData :=
  if accountId == "" then .error "\x27accountId\x27 is required"
  else
    match transactionResult with
    | .error msg =>
      .error ("Failed to retrieve transaction data: Transaction query failed: " ++ msg)
    | .ok transactions =>
      let userData : UserRow :=
        match userResult with
        | some (u :: _) => u
        | _ => { firstname := "", lastname := "" }
      let fullName := jsTrim (userData.firstname ++ " " ++ userData.lastname)
      let owner := if fullName == "" then "Unknown" else fullName
      if transactions.length == 0 then
        .ok { accountOwner := owner, accountNumber := getLastFour (.str accountId),
              transactions := [] }
      else
        let processedTransactions := transactions.map (processRow accountId)
        .ok { accountOwner := owner, accountNumber := getLastFour (.str accountId),
              transactions := assignBalances accountId 0 processedTransactions }

/-- Descending-timestamp ordering used by the ledger query. -/
def rowGE (a b : LedgerRow) : Prop := b.timestamp ≤ a.timestamp

instance : DecidableRel rowGE := fun a b => inferInstanceAs (Decidable (b.timestamp ≤ a.timestamp))

instance : IsTotal LedgerRow rowGE := ⟨fun a b => le_total b.timestamp a.timestamp⟩

instance : IsTrans LedgerRow rowGE := ⟨fun _ _ _ hab hbc => le_trans hbc hab⟩

/-- The ledger query `WHERE (from_acct = $1 OR to_acct = $1) ORDER BY
timestamp DESC`, modelled over a table of rows as a filter followed by a
stable descending sort. -/
def ledgerQuery (tbl : List LedgerRow) (accountId : String) : List LedgerRow :=
  List.insertionSort rowGE
    (tbl.filter (fun r => r.from_acct == some accountId || r.to_acct == some accountId))

/-! ## The filter & aggregation engine (index.js) -/

/-- The structured arguments of a `getTransactionSummary` tool call.  The
string filters carry the raw strings; `startDate`/`endDate` carry the raw
`YYYY-MM-DD` strings from the tool schema. -/
structure AIParams where
  summaryType : String
  recipient : Option String := none
  sender : Option String := none
  merchantName : Option String := none
  startDate : Option String := none
  endDate : Option String := none
  category : Option String := none
  transactionType : Option String := none
deriving DecidableEq

/-- The per-transaction predicate of `filterTransactions`: the sequence of
early-`return false` guards of the JS callback.  `new Date(s)` on a schema
date string parses at UTC midnight and `setHours` is modelled at UTC; an
unparseable date gives `NaN` comparisons, which never exclude. -/
def txPasses (params : AIParams) (tx : ProcessedTx) : Bool :=
  if truthy params.recipient && tx.toAccount != "" &&
      jsToLower tx.toAccount != jsToLower (params.recipient.getD "") then false
  else if truthy params.sender && tx.fromAccount != "" &&
      jsToLower tx.fromAccount != jsToLower (params.sender.getD "") then false
  else if truthy params.merchantName &&
      !((tx.fromAccount != "" &&
          jsIncludes (jsToLower tx.fromAccount) (jsToLower (params.merchantName.getD ""))) ||
        (tx.toAccount != "" &&
          jsIncludes (jsToLower tx.toAccount) (jsToLower (params.merchantName.getD "")))) then false
  else if truthy params.startDate &&
      (match parseIsoDate (params.startDate.getD "") with
       | some ms => decide (tx.transactionDate < ms)
       | none => false) then false
  else if truthy params.endDate &&
      (match parseIsoDate (params.endDate.getD "") with
       | some ms => decide (ms + 86399999 < tx.transactionDate)  -- setHours(23,59,59,999)
       | none => false) then false
  else if truthy params.category && truthy tx.category &&
      jsToLower (tx.category.getD "") != jsToLower (params.category.getD "") then false
  else if truthy params.transactionType && truthy tx.transactionType &&
      jsToLower (tx.transactionType.getD "") != jsToLower (params.transactionType.getD "") then false
  else true

/-- `filterTransactions` (index.js): keep the transactions passing every
supplied filter.  (`userId` is only used for logging there.) -/
def filterTransactions (transactions : List ProcessedTx) (userId : String)
    (params : AIParams) : List ProcessedTx :=
  let _ := userId
  transactions.filter (txPasses params)

/-- The redacted view built by the `list` (and fallback) branches of
`processTransactionDataForAI`.  The JS keys `from`/`to` are named
`fromLast4`/`toLast4` here. -/
structure RedactedTx where
  date : String
  description : Option String
  amount : String
  type : Option String
  fromLast4 : String
  toLast4 : String
deriving DecidableEq

/-- A JS value as storable in the `result` field of an aggregation payload:
a number, a string (e.g. a formatted amount), or an array of redacted
transactions. -/
inductive JVal where
  | jnum (q : Rat)
  | jstr (s : String)
  | jarr (l : List RedactedTx)
deriving DecidableEq

/-- The payload object `processTransactionDataForAI` returns (absent JS keys
are `none`). -/
structure AIOut where
  result : JVal
  message : Option String := none
  unit : Option String := none
  description : Option String := none
deriving DecidableEq

/-- The empty-filtered-set message: a generic message successively overwritten
by the category, merchant and date-range messages when those filters are
supplied (so the *last* assignment wins). -/
def emptyMessage (params : AIParams) : String :=
  let m0 := "No transactions found matching your criteria."
  let m1 := if truthy params.category then
      "No transactions found in the \x27" ++ params.category.getD "" ++ "\x27 category."
    else m0
  let m2 := if truthy params.merchantName then
      "No transactions found with \x27" ++ params.merchantName.getD "" ++ "\x27."
    else m1
  let m3 := if truthy params.startDate && truthy params.endDate then
      "No transactions found between " ++ params.startDate.getD "" ++ " and " ++
        params.endDate.getD "" ++ "."
    else m2
  m3

/-- The redaction map applied by the `list` branch (and, identically, by the
fallback branch) of `processTransactionDataForAI`. -/
def redactTx (tx : ProcessedTx) : RedactedTx :=
  { date := tx.formattedDate
    description := tx.description
    amount := tx.formattedAmount
    type := tx.transactionType
    fromLast4 := tx.fromAccountLastFour
    toLast4 := tx.toAccountLastFour }

/-- The reducer of the `total_amount` branch: add the amount when the user is
the source, else when the user is the destination; the remaining
`transactionType` sub-branches re-test `fromAccount`/`toAccount` against the
user and are therefore unreachable there.
(`parseFloat(tx.amount || 0)` is the identity on the already-parsed amount.) -/
def totalReducer (userId : String) (params : AIParams) (sum : Rat) (tx : ProcessedTx) : Rat :=
  let amount := tx.amount
  if tx.fromAccount == userId then sum + amount
  else if tx.toAccount == userId then sum + amount
  else if truthy params.transactionType then
    if params.transactionType == some "debit" && tx.transactionType == some "debit" &&
        tx.fromAccount == userId then sum + amount
    else if params.transactionType == some "credit" && tx.transactionType == some "credit" &&
        tx.toAccount == userId then sum + amount
    else sum
  else sum

/-- `processTransactionDataForAI` (index.js): filter, then dispatch on
`summaryType`; an empty filtered set short-circuits to a structured
no-transactions payload. -/
def processTransactionDataForAI (transactions : List ProcessedTx) (userId : String)
    (params : AIParams) : AIOut :=
  let filteredTx := filterTransactions transactions userId params
  if filteredTx.length == 0 then
    { result := .jarr [], message := some (emptyMessage params) }
  else if params.summaryType == "count" then
    { result := .jnum (filteredTx.length : Rat), unit := some "count",
      description := some "Number of transactions" }
  else if params.summaryType == "total_amount" then
    let total : Rat := filteredTx.foldl (totalReducer userId params) 0
    { result := .jnum total, unit := some "currency", description := some "Total amount" }
  else if params.summaryType == "list" then
    let formattedTx := filteredTx.map redactTx
    { result := .jarr formattedTx,
      message := some ("Found " ++ natStr formattedTx.length ++ " matching transactions.") }
  else
    -- Fallback for an unexpected summaryType: identical to the list branch.
    let formattedTx := filteredTx.map redactTx
    { result := .jarr formattedTx,
      message := some ("Found " ++ natStr formattedTx.length ++ " matching transactions.") }

/-! ## The connection probe (controller.js, `testConnection`) -/

/-- `retryOptions.maxRetries`. -/
def retryMaxRetries : Nat := 3

/-- `retryOptions.retryDelay` (milliseconds). -/
def retryDelayMs : Nat := 1000

/-- The observable outcome of `testConnection`: its return value, how many
connect-and-query attempts were performed, and the delays inserted between
attempts, in order. -/
structure ConnResult where
  ok : Bool
  attempts : Nat
  delays : List Nat
deriving DecidableEq

/-- The `while (attempts < maxRetries)` loop of `testConnection`.  `oracle k`
tells whether the `k`-th (0-based) connect-and-trivial-query attempt succeeds
(a timeout or query error is a failure).  The `fuel` argument is a modelling
artifact bounding the loop: `attempts` strictly increases on every failed
iteration, so `fuel = maxRetries` iterations always suffice. -/
def testConnectionGo (oracle : Nat → Bool) : Nat → Nat → ConnResult
  | 0, attempts => { ok := false, attempts := attempts, delays := [] }
  | fuel + 1, attempts =>
    if attempts < retryMaxRetries then
      if oracle attempts then { ok := true, attempts := attempts + 1, delays := [] }
      else
        let r := testConnectionGo oracle fuel (attempts + 1)
        { ok := r.ok, attempts := r.attempts,
          delays :=
            (if attempts + 1 < retryMaxRetries then [retryDelayMs * (attempts + 1)] else [])
              ++ r.delays }
    else { ok := false, attempts := attempts, delays := [] }

/-- `testConnection` (controller.js), abstracted over the attempt outcomes. -/
def testConnection (oracle : Nat → Bool) : ConnResult :=
  testConnectionGo oracle retryMaxRetries 0

/-! ## Helper lemmas and claim theorems -/

/-- Extract the success payload of a fetch (used to form closed witnesses). -/
def okResOf (e : Except String TxData) : TxData :=
  match e with
  | .ok r => r
  | .error _ => { accountOwner := "", accountNumber := "", transactions := [] }

theorem testConnectionGo_attempts_le (oracle : Nat → Bool) :
    ∀ fuel a, a ≤ retryMaxRetries →
      (testConnectionGo oracle fuel a).attempts ≤ retryMaxRetries := by
  intro fuel
  induction fuel with
  | zero => intro a ha; exact ha
  | succ fuel ih =>
    intro a ha
    simp only [testConnectionGo]
    split
    · split
      · exact ‹a < retryMaxRetries›
      · exact ih (a + 1) ‹a < retryMaxRetries›
    · exact ha

theorem testConnectionGo_delays_nil (oracle : Nat → Bool) :
    ∀ fuel a, retryMaxRetries ≤ a → (testConnectionGo oracle fuel a).delays = [] := by
  intro fuel a ha
  cases fuel with
  | zero => rfl
  | succ fuel =>
    simp only [testConnectionGo]
    split
    · omega
    · rfl

theorem testConnectionGo_delays_linear (oracle : Nat → Bool) :
    ∀ fuel a j d, (testConnectionGo oracle fuel a).delays.get? j = some d →
      d = retryDelayMs * (a + j + 1) := by
  intro fuel
  induction fuel with
  | zero => intro a j d h; simp [testConnectionGo] at h
  | succ fuel ih =>
    intro a j d h
    simp only [testConnectionGo] at h
    split at h
    · split at h
      · simp at h
      · by_cases hlt : a + 1 < retryMaxRetries
        · rw [if_pos hlt] at h
          cases j with
          | zero =>
            simp at h
            simp only [Nat.add_zero]
            omega
          | succ j =>
            simp only [List.cons_append, List.nil_append, List.get?_cons_succ] at h
            rw [ih (a + 1) j d h]
            congr 1
            omega
        · rw [if_neg hlt] at h
          rw [testConnectionGo_delays_nil oracle fuel (a + 1) (by omega)] at h
          simp at h
    · simp at h

theorem testConnectionGo_allfail (oracle : Nat → Bool)
    (hall : ∀ k, k < retryMaxRetries → oracle k = false) :
    ∀ fuel a, (testConnectionGo oracle fuel a).ok = false := by
  intro fuel
  induction fuel with
  | zero => intro a; rfl
  | succ fuel ih =>
    intro a
    simp only [testConnectionGo]
    split
    · rw [hall a ‹a < retryMaxRetries›]
      exact ih (a + 1)
    · rfl

/-- Claim C10: `testConnection` performs at most 3 connect-and-query attempts;
the delay inserted after the `k`-th failed attempt is the base delay times `k`
(the `j`-th recorded delay, 0-based, is `retryDelay * (j + 1)`); and when all
attempts fail it returns `false` instead of throwing. -/
theorem testConnection_retry_policy (oracle : Nat → Bool) :
    (testConnection oracle).attempts ≤ retryMaxRetries ∧
    (∀ j d, (testConnection oracle).delays.get? j = some d → d = retryDelayMs * (j + 1)) ∧
    ((∀ k, k < retryMaxRetries → oracle k = false) → (testConnection oracle).ok = false) := by
  refine ⟨testConnectionGo_attempts_le oracle retryMaxRetries 0 (by omega), ?_, ?_⟩
  · intro j d h
    have h2 := testConnectionGo_delays_linear oracle retryMaxRetries 0 j d h
    rw [h2]
    congr 1
    omega
  · intro hall
    exact testConnectionGo_allfail oracle hall retryMaxRetries 0

/-- Witness for C10 at the all-failures oracle: three attempts, delays
1000 ms and 2000 ms, soft `false` result. -/
theorem testConnection_retry_policy_witness :
    (testConnection (fun _ => false)).attempts ≤ retryMaxRetries ∧
    (testConnection (fun _ => false)).delays.get? 1 = some 2000 ∧
    2000 = retryDelayMs * (1 + 1) ∧
    (testConnection (fun _ => false)).ok = false :=
  ⟨(testConnection_retry_policy (fun _ => false)).1,
   by decide,
   (testConnection_retry_policy (fun _ => false)).2.1 1 2000 (by decide),
   (testConnection_retry_policy (fun _ => false)).2.2 (fun _ _ => rfl)⟩

/-- Claim C9: `getLastFour` returns the last four characters of a string of
length at least four (the dropped prefix re-concatenated with the result gives
the input back), returns the mask `"****"` for `undefined`, the empty string,
and non-string values, and returns a non-empty string of fewer than four
characters whole. -/
theorem getLastFour_redaction :
    (∀ s : String, 4 ≤ s.toList.length →
      (getLastFour (.str s)).toList.length = 4 ∧
      String.mk (s.toList.take (s.toList.length - 4)) ++ getLastFour (.str s) = s) ∧
    getLastFour .undef = "****" ∧
    getLastFour (.str "") = "****" ∧
    (∀ q : Rat, getLastFour (.num q) = "****") ∧
    getLastFour .nan = "****" ∧
    (∀ s : String, s ≠ "" → s.toList.length < 4 → getLastFour (.str s) = s) := by
  have hmk : ∀ s : String, String.mk s.toList = s := fun s => rfl
  refine ⟨?_, rfl, rfl, fun _ => rfl, rfl, ?_⟩
  · intro s hs
    have hne : (s == "") = false := by
      refine beq_eq_false_iff_ne.mpr (fun h => ?_)
      subst h; simp at hs
    refine ⟨?_, ?_⟩
    · simp only [getLastFour, hne, Bool.false_eq_true, if_false]
      show (s.toList.drop (s.toList.length - 4)).length = 4
      rw [List.length_drop]
      omega
    · simp only [getLastFour, hne, Bool.false_eq_true, if_false]
      have hcat :
          String.mk (s.toList.take (s.toList.length - 4)) ++
            String.mk (s.toList.drop (s.toList.length - 4)) =
          String.mk (s.toList.take (s.toList.length - 4) ++
            s.toList.drop (s.toList.length - 4)) := rfl
      rw [hcat, List.take_append_drop, hmk]
  · intro s hs hlen
    have hne : (s == "") = false := beq_eq_false_iff_ne.mpr hs
    simp only [getLastFour, hne, Bool.false_eq_true, if_false]
    have hz : s.toList.length - 4 = 0 := by omega
    rw [hz, List.drop_zero, hmk]

theorem digitChar_lt_ten_spec (d : Nat) (hd : d < 10) :
    digitVal (digitChar d) = some d := by
  interval_cases d <;> decide

theorem digitChar_ne_dot (d : Nat) : digitChar d ≠ '.' := by
  unfold digitChar
  split <;> decide

theorem digitChar_not_ws (d : Nat) : jsIsWS (digitChar d) = false := by
  unfold digitChar
  split <;> decide

theorem pad2_length (m : Nat) : (pad2 m).length = 2 := by
  unfold pad2
  split <;> rfl

theorem pad2_ne_dot (m : Nat) : ∀ c ∈ pad2 m, c ≠ '.' := by
  unfold pad2
  split <;>
    · intro c hc
      simp only [List.mem_cons, List.mem_singleton, List.not_mem_nil, or_false] at hc
      rcases hc with rfl | rfl
      · first | decide | exact digitChar_ne_dot _
      · exact digitChar_ne_dot _

theorem takeWhile_append_stop (p : Char → Bool) (l1 l2 : List Char) (c : Char)
    (h1 : ∀ x ∈ l1, p x = true) (hc : p c = false) :
    (l1 ++ c :: l2).takeWhile p = l1 := by
  induction l1 with
  | nil => simp [List.takeWhile_cons, hc]
  | cons a l1 ih =>
    have ha : p a = true := h1 a (List.mem_cons_self a l1)
    simp only [List.cons_append, List.takeWhile_cons, ha, if_true]
    rw [ih (fun x hx => h1 x (List.mem_cons_of_mem a hx))]

theorem ratFloor_eq_intFloor (q : Rat) : Rat.floor q = ⌊q⌋ :=
  (Rat.floor_def' q).trans Rat.floor_def.symm

theorem hasTwoDecimals_toFixed2 (q : Rat) : hasTwoDecimals (toFixed2 q) = true := by
  unfold toFixed2 hasTwoDecimals
  set sgn : List Char := if q < 0 then ['-'] else [] with hsgn
  set n : Nat := (Rat.floor ((if q < 0 then -q else q) * 100 + 1 / 2)).toNat with hn
  show (decide ('.' ∈ sgn ++ natDigits (n / 100 + 1) (n / 100) ++ '.' :: pad2 (n % 100)) &&
    ((sgn ++ natDigits (n / 100 + 1) (n / 100) ++ '.' :: pad2 (n % 100)).reverse.takeWhile
      (fun c => c != '.')).length == 2) = true
  rw [Bool.and_eq_true]
  constructor
  · simp
  · rw [List.reverse_append, List.reverse_cons, List.append_assoc, List.singleton_append,
      takeWhile_append_stop (fun c => c != '.') (pad2 (n % 100)).reverse _ '.'
        (fun x hx => by
          have := pad2_ne_dot (n % 100) x (List.mem_reverse.mp hx)
          simpa using this)
        (by decide)]
    simp [pad2_length]

theorem hasTwoDecimals_formatCurrency (v : JSVal) :
    hasTwoDecimals (formatCurrency v) = true := by
  unfold formatCurrency
  match jsParseFloat v with
  | none => decide
  | some q => exact hasTwoDecimals_toFixed2 q

theorem toFixed2Val_mono {a b : Rat} (hab : a ≤ b) : toFixed2Val a ≤ toFixed2Val b := by
  unfold toFixed2Val
  simp only [ratFloor_eq_intFloor]
  have h100 : (0 : Rat) < 100 := by norm_num
  split_ifs with ha hb hb
  · have hfl : ⌊(-b) * 100 + 1 / 2⌋ ≤ ⌊(-a) * 100 + 1 / 2⌋ :=
      Int.floor_le_floor (by nlinarith)
    have hc : ((⌊(-b) * 100 + 1 / 2⌋ : Int) : Rat) ≤ ((⌊(-a) * 100 + 1 / 2⌋ : Int) : Rat) := by
      exact_mod_cast hfl
    linarith
  · have hL : (0 : Int) ≤ ⌊(-a) * 100 + 1 / 2⌋ := by
      apply Int.le_floor.mpr
      push_cast
      nlinarith
    have hR : (0 : Int) ≤ ⌊b * 100 + 1 / 2⌋ := by
      apply Int.le_floor.mpr
      push_cast
      push_neg at hb
      nlinarith
    have hL2 : (0 : Rat) ≤ ((⌊(-a) * 100 + 1 / 2⌋ : Int) : Rat) := by exact_mod_cast hL
    have hR2 : (0 : Rat) ≤ ((⌊b * 100 + 1 / 2⌋ : Int) : Rat) := by exact_mod_cast hR
    have : -((⌊(-a) * 100 + 1 / 2⌋ : Int) : Rat) ≤ ((⌊b * 100 + 1 / 2⌋ : Int) : Rat) := by
      linarith
    linarith
  · exfalso
    push_neg at ha
    exact absurd (lt_of_le_of_lt hab hb) (not_lt.mpr ha)
  · have hfl : ⌊a * 100 + 1 / 2⌋ ≤ ⌊b * 100 + 1 / 2⌋ :=
      Int.floor_le_floor (by nlinarith)
    have hc : ((⌊a * 100 + 1 / 2⌋ : Int) : Rat) ≤ ((⌊b * 100 + 1 / 2⌋ : Int) : Rat) := by
      exact_mod_cast hfl
    linarith

/-- The digit values pad2 renders (`pad2 m = (pad2Vals m).map digitChar`). -/
def pad2Vals (m : Nat) : List Nat :=
  if m < 10 then [0, m] else [m / 10, m % 10]

theorem pad2_eq_map (m : Nat) : pad2 m = (pad2Vals m).map digitChar := by
  unfold pad2 pad2Vals
  split <;> rfl

theorem pad2Vals_lt (m : Nat) (h : m < 100) : ∀ d ∈ pad2Vals m, d < 10 := by
  unfold pad2Vals
  split <;>
    · intro d hd
      simp only [List.mem_cons, List.mem_singleton, List.not_mem_nil, or_false] at hd
      rcases hd with rfl | rfl <;> omega

theorem pad2Vals_val (m : Nat) (h : m < 100) : natOfDigits (pad2Vals m) = m := by
  unfold pad2Vals natOfDigits
  split <;> simp <;> omega

theorem pad2Vals_len (m : Nat) : (pad2Vals m).length = 2 := by
  unfold pad2Vals
  split <;> rfl

theorem digitChar_ne_dash (d : Nat) : (digitChar d == '-') = false := by
  unfold digitChar
  split <;> decide

theorem digitChar_ne_plus (d : Nat) : (digitChar d == '+') = false := by
  unfold digitChar
  split <;> decide

theorem natOfDigits_concat (ds : List Nat) (e : Nat) :
    natOfDigits (ds ++ [e]) = natOfDigits ds * 10 + e := by
  simp [natOfDigits, List.foldl_append]

theorem natDigits_spec : ∀ fuel n, n < fuel →
    ∃ ds, natDigits fuel n = ds.map digitChar ∧ (∀ d ∈ ds, d < 10) ∧
      natOfDigits ds = n ∧ ds ≠ [] := by
  intro fuel
  induction fuel with
  | zero => intro n h; omega
  | succ fuel ih =>
    intro n h
    by_cases h10 : n < 10
    · refine ⟨[n], ?_, ?_, ?_, by simp⟩
      · simp [natDigits, h10]
      · intro d hd
        simp only [List.mem_singleton] at hd
        omega
      · simp [natOfDigits]
    · have hdiv : n / 10 < fuel := by
        have := Nat.div_lt_self (show 0 < n by omega) (show 1 < 10 by omega)
        omega
      obtain ⟨ds, hmap, hlt, hval, hne⟩ := ih (n / 10) hdiv
      refine ⟨ds ++ [n % 10], ?_, ?_, ?_, by simp⟩
      · simp [natDigits, h10, hmap]
      · intro d hd
        rcases List.mem_append.mp hd with hmem | hmem
        · exact hlt d hmem
        · simp only [List.mem_singleton] at hmem
          omega
      · rw [natOfDigits_concat, hval]
        omega

theorem takeDigits_digits_append (ds : List Nat) (rest : List Char)
    (hds : ∀ d ∈ ds, d < 10)
    (hrest : ∀ c, rest.head? = some c → digitVal c = none) :
    takeDigits (ds.map digitChar ++ rest) = (ds, rest) := by
  induction ds with
  | nil =>
    cases rest with
    | nil => rfl
    | cons c l => simp [takeDigits, hrest c rfl]
  | cons d ds ih =>
    have hd : digitVal (digitChar d) = some d :=
      digitChar_lt_ten_spec d (hds d (List.mem_cons_self d ds))
    simp only [List.map_cons, List.cons_append, takeDigits, hd, List.append_eq]
    rw [ih (fun x hx => hds x (List.mem_cons_of_mem d hx))]

theorem jsSignSplit_dash (rest : List Char) : jsSignSplit ('-' :: rest) = (-1, rest) := by
  simp [jsSignSplit]

theorem jsSignSplit_digit (d : Nat) (rest : List Char) :
    jsSignSplit (digitChar d :: rest) = (1, digitChar d :: rest) := by
  show (if (digitChar d == '-') = true then ((-1 : Int), rest)
    else if (digitChar d == '+') = true then (1, rest)
    else (1, digitChar d :: rest)) = (1, digitChar d :: rest)
  rw [digitChar_ne_dash, digitChar_ne_plus]
  simp

theorem jsFracPart_dot (rest : List Char) : jsFracPart ('.' :: rest) = (takeDigits rest).1 := by
  simp [jsFracPart]

theorem dropWhile_not_ws (c : Char) (l : List Char) (hc : jsIsWS c = false) :
    List.dropWhile jsIsWS (c :: l) = c :: l := by
  simp [List.dropWhile_cons, hc]

theorem jsParseFloatTail_canonical (sgn : Int) (ds fs : List Nat)
    (hds : ∀ d ∈ ds, d < 10) (hfs : ∀ d ∈ fs, d < 10) (hne : ds ≠ []) :
    jsParseFloatTail sgn (ds.map digitChar ++ '.' :: fs.map digitChar) =
      some ((sgn : Rat) *
        ((natOfDigits ds : Rat) + (natOfDigits fs : Rat) / (10 : Rat) ^ fs.length)) := by
  have htail : takeDigits (ds.map digitChar ++ '.' :: fs.map digitChar) =
      (ds, '.' :: fs.map digitChar) :=
    takeDigits_digits_append _ _ hds (fun c hc => by
      simp only [List.head?_cons, Option.some_inj] at hc
      subst hc
      decide)
  have hfp : takeDigits (fs.map digitChar) = (fs, []) := by
    have h := takeDigits_digits_append fs [] hfs (fun c hc => by simp at hc)
    simpa using h
  unfold jsParseFloatTail
  rw [htail]
  obtain ⟨d0, ds', rfl⟩ : ∃ d0 ds', ds = d0 :: ds' := by
    cases ds with
    | nil => exact absurd rfl hne
    | cons a b => exact ⟨a, b, rfl⟩
  simp [jsFracPart_dot, hfp, List.isEmpty]

theorem jsParseFloatStr_canonical (neg : Bool) (ds fs : List Nat)
    (hds : ∀ d ∈ ds, d < 10) (hfs : ∀ d ∈ fs, d < 10) (hne : ds ≠ []) :
    jsParseFloatStr (String.mk ((if neg then ['-'] else []) ++
        ds.map digitChar ++ '.' :: fs.map digitChar)) =
      some ((((if neg then (-1 : Int) else 1) : Int) : Rat) *
        ((natOfDigits ds : Rat) + (natOfDigits fs : Rat) / (10 : Rat) ^ fs.length)) := by
  obtain ⟨d0, ds', rfl⟩ : ∃ d0 ds', ds = d0 :: ds' := by
    cases ds with
    | nil => exact absurd rfl hne
    | cons a b => exact ⟨a, b, rfl⟩
  cases neg with
  | false =>
    show jsParseFloatStr (String.mk ([] ++
      (d0 :: ds').map digitChar ++ '.' :: fs.map digitChar)) = _
    unfold jsParseFloatStr
    rw [show (String.mk ([] ++ (d0 :: ds').map digitChar ++ '.' :: fs.map digitChar)).toList =
      digitChar d0 :: (ds'.map digitChar ++ '.' :: fs.map digitChar) by simp]
    rw [dropWhile_not_ws _ _ (digitChar_not_ws d0), jsSignSplit_digit]
    have h := jsParseFloatTail_canonical 1 (d0 :: ds') fs hds hfs (by simp)
    simp only [List.map_cons, List.cons_append] at h
    simpa using h
  | true =>
    show jsParseFloatStr (String.mk (['-'] ++
      (d0 :: ds').map digitChar ++ '.' :: fs.map digitChar)) = _
    unfold jsParseFloatStr
    rw [show (String.mk (['-'] ++ (d0 :: ds').map digitChar ++ '.' :: fs.map digitChar)).toList =
      '-' :: ((d0 :: ds').map digitChar ++ '.' :: fs.map digitChar) by simp]
    rw [dropWhile_not_ws _ _ (by decide), jsSignSplit_dash]
    have h := jsParseFloatTail_canonical (-1) (d0 :: ds') fs hds hfs (by simp)
    simpa using h

theorem toFixed2_parse_core (x : Rat) (hx : 0 ≤ x) (neg : Bool) :
    jsParseFloatStr (String.mk ((if neg then ['-'] else []) ++
      natDigits ((⌊x * 100 + 1 / 2⌋).toNat / 100 + 1) ((⌊x * 100 + 1 / 2⌋).toNat / 100) ++
      '.' :: pad2 ((⌊x * 100 + 1 / 2⌋).toNat % 100))) =
    some ((((if neg then (-1 : Int) else 1) : Int) : Rat) *
      (((⌊x * 100 + 1 / 2⌋ : Int) : Rat) / 100)) := by
  have hfl0 : (0 : Int) ≤ ⌊x * 100 + 1 / 2⌋ := by
    apply Int.le_floor.mpr
    push_cast
    nlinarith
  set n : Nat := (⌊x * 100 + 1 / 2⌋).toNat with hn
  have hcast : ((n : Int)) = ⌊x * 100 + 1 / 2⌋ := Int.toNat_of_nonneg hfl0
  have hmod : n % 100 < 100 := Nat.mod_lt _ (by norm_num)
  obtain ⟨ds, hmap, hlt, hval, hne⟩ := natDigits_spec (n / 100 + 1) (n / 100) (by omega)
  rw [hmap, pad2_eq_map]
  rw [jsParseFloatStr_canonical neg ds (pad2Vals (n % 100)) hlt (pad2Vals_lt _ hmod) hne]
  congr 1
  rw [hval, pad2Vals_val _ hmod, pad2Vals_len]
  congr 1
  have h1 : ((n : Rat)) = ((⌊x * 100 + 1 / 2⌋ : Int) : Rat) := by exact_mod_cast hcast
  have h3 : (100 : Rat) * ((n / 100 : Nat) : Rat) + ((n % 100 : Nat) : Rat) = (n : Rat) := by
    exact_mod_cast Nat.div_add_mod n 100
  rw [← h1]
  rw [show ((10 : Rat) ^ 2) = 100 by norm_num]
  linarith

theorem parse_toFixed2 (q : Rat) : jsParseFloatStr (toFixed2 q) = some (toFixed2Val q) := by
  unfold toFixed2 toFixed2Val
  simp only [ratFloor_eq_intFloor]
  by_cases hq : q < 0
  · simp only [hq, if_true]
    have h := toFixed2_parse_core (-q) (by linarith) true
    simp only [if_true] at h
    rw [h]
    congr 1
    push_cast
    ring
  · simp only [hq, if_false]
    have h := toFixed2_parse_core q (not_lt.mp hq) false
    simp only [Bool.false_eq_true, if_false] at h
    rw [h]
    congr 1
    push_cast
    ring

/-- Claim C7: `formatCurrency` always renders exactly two decimal digits; the
numeric value its output denotes (`parseFloat` of the rendered string, which
is exactly `toFixed2Val`) is order-preserving in the numeric input; and
`formatCurrency(5) = "5.00"`, `formatCurrency("abc") = "0.00"`. -/
theorem formatCurrency_two_decimals_monotone :
    (∀ v : JSVal, hasTwoDecimals (formatCurrency v) = true) ∧
    (∀ q : Rat, jsParseFloatStr (formatCurrency (.num q)) = some (toFixed2Val q)) ∧
    (∀ a b : Rat, a ≤ b → toFixed2Val a ≤ toFixed2Val b) ∧
    formatCurrency (.num 5) = "5.00" ∧
    formatCurrency (.str "abc") = "0.00" := by
  refine ⟨hasTwoDecimals_formatCurrency, ?_, fun a b hab => toFixed2Val_mono hab,
    by with_unfolding_all rfl, by with_unfolding_all rfl⟩
  intro q
  show jsParseFloatStr (toFixed2 q) = some (toFixed2Val q)
  exact parse_toFixed2 q

/-- Witness for C7 at `0 ≤ 1`. -/
theorem formatCurrency_two_decimals_monotone_witness :
    (0 : Rat) ≤ 1 ∧ toFixed2Val 0 ≤ toFixed2Val 1 :=
  ⟨by norm_num, formatCurrency_two_decimals_monotone.2.2.1 0 1 (by norm_num)⟩

/-- Witness for C9 at `"1234567890"` and `"abc"`. -/
theorem getLastFour_redaction_witness :
    (4 ≤ ("1234567890" : String).toList.length ∧
      (getLastFour (.str "1234567890")).toList.length = 4 ∧
      String.mk (("1234567890" : String).toList.take
        (("1234567890" : String).toList.length - 4)) ++
        getLastFour (.str "1234567890") = "1234567890") ∧
    (getLastFour (.str "abc") = "abc") :=
  ⟨⟨by decide, getLastFour_redaction.1 "1234567890" (by decide)⟩,
   getLastFour_redaction.2.2.2.2.2 "abc" (by decide) (by decide)⟩

theorem filter_listParams (txs : List ProcessedTx) (uid : String) (params : AIParams) :
    filterTransactions txs uid { params with summaryType := "list" } =
      filterTransactions txs uid params := rfl

theorem emptyMessage_listParams (params : AIParams) :
    emptyMessage { params with summaryType := "list" } = emptyMessage params := rfl

/-- Claim C8: an unrecognized `summaryType` is processed identically to
`"list"` (the fallback branch duplicates the list branch). -/
theorem unknown_summaryType_eq_list (txs : List ProcessedTx) (uid : String) (params : AIParams)
    (h1 : params.summaryType ≠ "count") (h2 : params.summaryType ≠ "total_amount")
    (h3 : params.summaryType ≠ "list")
    (h4 : filterTransactions txs uid params ≠ []) :
    processTransactionDataForAI txs uid params =
      processTransactionDataForAI txs uid { params with summaryType := "list" } := by
  have e1 : (params.summaryType == "count") = false := beq_eq_false_iff_ne.mpr h1
  have e2 : (params.summaryType == "total_amount") = false := beq_eq_false_iff_ne.mpr h2
  have e3 : (params.summaryType == "list") = false := beq_eq_false_iff_ne.mpr h3
  have hlen : ((filterTransactions txs uid params).length == 0) = false := by
    refine beq_eq_false_iff_ne.mpr (fun hh => h4 ?_)
    exact List.length_eq_zero.mp hh
  unfold processTransactionDataForAI
  rw [filter_listParams]
  simp only [hlen, Bool.false_eq_true, if_false, e1, e2, e3]
  rfl

/-- Witness for C8 at a concrete transaction and `summaryType := "bogus"`. -/
theorem unknown_summaryType_eq_list_witness :
    processTransactionDataForAI
        [{ transactionDate := 0, formattedDate := "1970-01-01", amount := 5,
           fromAccount := "u1", toAccount := "B2", type := "Debit",
           fromAccountLastFour := "u1", toAccountLastFour := "B2",
           formattedAmount := "5.00" }] "u1" { summaryType := "bogus" } =
      processTransactionDataForAI
        [{ transactionDate := 0, formattedDate := "1970-01-01", amount := 5,
           fromAccount := "u1", toAccount := "B2", type := "Debit",
           fromAccountLastFour := "u1", toAccountLastFour := "B2",
           formattedAmount := "5.00" }] "u1"
        { ({ summaryType := "bogus" } : AIParams) with summaryType := "list" } :=
  unknown_summaryType_eq_list _ _ _ (by decide) (by decide) (by decide)
    (by with_unfolding_all (exact of_decide_eq_false rfl))

/-- The transaction used in the C2 counterexample: a debit of 1/8 (0.125). -/
def txC2 : ProcessedTx :=
  { transactionDate := 0, formattedDate := "1970-01-01", amount := 1 / 8,
    fromAccount := "u1", toAccount := "B2", type := "Debit",
    fromAccountLastFour := "u1", toAccountLastFour := "B2",
    formattedAmount := "0.13" }

def paramsC2 : AIParams := { summaryType := "total_amount" }

/-- Counterexample for C2 as stated: the `total_amount` result is the raw sum
as a number (here `1/8 = 0.125`), not a string formatted to two decimal
places — it is not the rendered string, and its value is not even
representable with two decimals. -/
theorem totalAmount_unformatted_cex :
    processTransactionDataForAI [txC2] "u1" paramsC2 =
      { result := .jnum (1 / 8), unit := some "currency",
        description := some "Total amount", message := none } ∧
    JVal.jnum (1 / 8) ≠ JVal.jstr (formatCurrency (.num (1 / 8))) ∧
    (1 / 8 : Rat) ≠ toFixed2Val (1 / 8) :=
  ⟨by with_unfolding_all rfl,
   fun h => JVal.noConfusion h,
   by with_unfolding_all (exact of_decide_eq_false rfl)⟩

theorem totalReducer_eq (uid : String) (params : AIParams) (s : Rat) (tx : ProcessedTx) :
    totalReducer uid params s tx =
      if tx.fromAccount == uid || tx.toAccount == uid then s + tx.amount else s := by
  unfold totalReducer
  by_cases h1 : (tx.fromAccount == uid) = true
  · simp [h1]
  · by_cases h2 : (tx.toAccount == uid) = true
    · simp [h1, h2]
    · simp [h1, h2]

theorem foldl_totalReducer (uid : String) (params : AIParams) :
    ∀ (l : List ProcessedTx) (s : Rat),
      l.foldl (totalReducer uid params) s =
        s + ((l.filter (fun tx => tx.fromAccount == uid || tx.toAccount == uid)).map
          (fun tx => tx.amount)).sum := by
  intro l
  induction l with
  | nil => intro s; simp
  | cons t rest ih =>
    intro s
    simp only [List.foldl_cons, totalReducer_eq, List.filter_cons]
    by_cases h : (t.fromAccount == uid || t.toAccount == uid) = true
    · simp only [h, if_true, List.map_cons, List.sum_cons]
      rw [ih]
      ring
    · simp only [h, Bool.false_eq_true, if_false]
      rw [ih]

/-- Claim C2 (amended): for a non-empty filtered set, `total_amount` returns
the gross sum — every filtered transaction whose source or destination equals
the user contributes its amount at face value, never negated — as a raw
number with `unit: "currency"`; the total is NOT formatted to two decimal
places. -/
theorem totalAmount_gross_sum (txs : List ProcessedTx) (uid : String) (params : AIParams)
    (hst : params.summaryType = "total_amount")
    (hne : filterTransactions txs uid params ≠ []) :
    processTransactionDataForAI txs uid params =
      { result := .jnum ((((filterTransactions txs uid params).filter
          (fun tx => tx.fromAccount == uid || tx.toAccount == uid)).map
            (fun tx => tx.amount)).sum),
        unit := some "currency", description := some "Total amount", message := none } := by
  have hlen : ((filterTransactions txs uid params).length == 0) = false := by
    refine beq_eq_false_iff_ne.mpr (fun hh => hne ?_)
    exact List.length_eq_zero.mp hh
  have e1 : (params.summaryType == "count") = false := by
    refine beq_eq_false_iff_ne.mpr (fun hh => ?_)
    rw [hst] at hh
    exact absurd hh (by decide)
  have e2 : (params.summaryType == "total_amount") = true := beq_iff_eq.mpr hst
  unfold processTransactionDataForAI
  simp only [hlen, Bool.false_eq_true, if_false, e1, e2, if_true]
  rw [foldl_totalReducer]
  rw [zero_add]

/-- Witness for C2 (amended) at a single debit of 1/8. -/
theorem totalAmount_gross_sum_witness :
    paramsC2.summaryType = "total_amount" ∧
    filterTransactions [txC2] "u1" paramsC2 ≠ [] ∧
    processTransactionDataForAI [txC2] "u1" paramsC2 =
      { result := .jnum ((((filterTransactions [txC2] "u1" paramsC2).filter
          (fun tx => tx.fromAccount == "u1" || tx.toAccount == "u1")).map
            (fun tx => tx.amount)).sum),
        unit := some "currency", description := some "Total amount", message := none } :=
  ⟨rfl, by with_unfolding_all (exact of_decide_eq_false rfl),
   totalAmount_gross_sum [txC2] "u1" paramsC2 rfl
     (by with_unfolding_all (exact of_decide_eq_false rfl))⟩

def paramsC5 : AIParams :=
  { summaryType := "count", category := some "groceries", merchantName := some "Mike" }

/-- Counterexample for C5 as stated: with both a category and a merchant
filter supplied and an empty filtered set, the message is the merchant
message, not the (claimed to be preferred) category message — the later
assignments overwrite the earlier ones. -/
theorem empty_message_preference_cex :
    processTransactionDataForAI [] "u1" paramsC5 =
      { result := .jarr [], message := some "No transactions found with \x27Mike\x27.",
        unit := none, description := none } ∧
    ("No transactions found with \x27Mike\x27." : String) ≠
      "No transactions found in the \x27groceries\x27 category." :=
  ⟨by with_unfolding_all rfl, by decide⟩

/-- Claim C5 (amended): on an empty filtered set the engine returns the
structured `{result: [], message}` payload (never a bare 0, for `count` as for
every summary type), and the message is tailored to the supplied filters with
preference date-range over merchant over category (the reverse of the claimed
order), falling back to a generic message. -/
theorem empty_result_structured_message (txs : List ProcessedTx) (uid : String)
    (params : AIParams) (h : filterTransactions txs uid params = []) :
    processTransactionDataForAI txs uid params =
      { result := .jarr [], message := some (emptyMessage params),
        unit := none, description := none } ∧
    emptyMessage params =
      (if truthy params.startDate && truthy params.endDate then
        "No transactions found between " ++ params.startDate.getD "" ++ " and " ++
          params.endDate.getD "" ++ "."
      else if truthy params.merchantName then
        "No transactions found with \x27" ++ params.merchantName.getD "" ++ "\x27."
      else if truthy params.category then
        "No transactions found in the \x27" ++ params.category.getD "" ++ "\x27 category."
      else "No transactions found matching your criteria.") := by
  constructor
  · unfold processTransactionDataForAI
    rw [h]
    rfl
  · unfold emptyMessage
    by_cases h1 : (truthy params.startDate && truthy params.endDate) = true <;>
      by_cases h2 : truthy params.merchantName = true <;>
        by_cases h3 : truthy params.category = true <;>
          simp [h1, h2, h3]

/-- Witness for C5 (amended) at the category+merchant parameter set. -/
theorem empty_result_structured_message_witness :
    filterTransactions [] "u1" paramsC5 = [] ∧
    processTransactionDataForAI [] "u1" paramsC5 =
      { result := .jarr [], message := some (emptyMessage paramsC5),
        unit := none, description := none } ∧
    emptyMessage paramsC5 = "No transactions found with \x27Mike\x27." :=
  ⟨rfl, (empty_result_structured_message [] "u1" paramsC5 rfl).1, by decide⟩

theorem assignBalances_mem (accountId : String) :
    ∀ (l : List ProcessedTx) (b : Rat) (tx : ProcessedTx), tx ∈ assignBalances accountId b l →
      ∃ tx0 ∈ l, tx.type = tx0.type ∧ tx.fromAccount = tx0.fromAccount ∧
        tx.category = tx0.category ∧ tx.transactionType = tx0.transactionType ∧
        tx.transactionDate = tx0.transactionDate ∧ tx.amount = tx0.amount := by
  intro l
  induction l with
  | nil => intro b tx h; simp [assignBalances] at h
  | cons t rest ih =>
    intro b tx h
    simp only [assignBalances, List.mem_cons] at h
    rcases h with rfl | h
    · exact ⟨t, List.mem_cons_self t rest, rfl, rfl, rfl, rfl, rfl, rfl⟩
    · obtain ⟨tx0, htx0, h1, h2, h3, h4, h5, h6⟩ := ih _ tx h
      exact ⟨tx0, List.mem_cons_of_mem t htx0, h1, h2, h3, h4, h5, h6⟩

theorem assignBalances_length (accountId : String) :
    ∀ (l : List ProcessedTx) (b : Rat), (assignBalances accountId b l).length = l.length := by
  intro l
  induction l with
  | nil => intro b; rfl
  | cons t rest ih =>
    intro b
    simp only [assignBalances, List.length_cons, ih]

/-- Inversion for a successful fetch: the account id was non-empty and the
returned transactions are the normalized rows with running balances (also for
zero rows, where both sides are empty). -/
theorem getTransactionData_ok_inv (acct : String) (rows : List LedgerRow)
    (ur : Option (List UserRow)) (res : TxData)
    (h : getTransactionData acct (.ok rows) ur = .ok res) :
    acct ≠ "" ∧ res.transactions = assignBalances acct 0 (rows.map (processRow acct)) := by
  by_cases hacct : acct = ""
  · subst hacct
    simp [getTransactionData] at h
  · refine ⟨hacct, ?_⟩
    have hne : (acct == "") = false := beq_eq_false_iff_ne.mpr hacct
    unfold getTransactionData at h
    simp only [hne, Bool.false_eq_true, if_false] at h
    split at h
    · next hcond =>
      have hnil : rows = [] := List.length_eq_zero.mp (beq_iff_eq.mp hcond)
      subst hnil
      injection h with h2
      rw [← h2]
      rfl
    · injection h with h2
      rw [← h2]

/-- Claim C4: records normalized by `getTransactionData` carry the direction
under the field name `type` and have no `category`/`transactionType` fields
(`none`), and `filterTransactions` applies its category and transaction-type
predicates only when those transaction fields are present — so filtering a
fetched list with only a `category` or `transactionType` parameter returns
the entire input list. -/
theorem category_type_filters_vacuous :
    (∀ (acct : String) (rows : List LedgerRow) (ur : Option (List UserRow)) (res : TxData),
      getTransactionData acct (.ok rows) ur = .ok res →
      ∀ tx ∈ res.transactions, tx.category = none ∧ tx.transactionType = none) ∧
    (∀ (txs : List ProcessedTx) (uid : String) (params : AIParams),
      (∀ tx ∈ txs, tx.category = none ∧ tx.transactionType = none) →
      params.recipient = none → params.sender = none → params.merchantName = none →
      params.startDate = none → params.endDate = none →
      filterTransactions txs uid params = txs) := by
  constructor
  · intro acct rows ur res h tx htx
    obtain ⟨hacct, htr⟩ := getTransactionData_ok_inv acct rows ur res h
    rw [htr] at htx
    obtain ⟨tx0, htx0, _, _, h3, h4, _, _⟩ := assignBalances_mem acct _ 0 tx htx
    obtain ⟨row, _, rfl⟩ := List.mem_map.mp htx0
    exact ⟨h3, h4⟩
  · intro txs uid params hnone hrec hsend hmerch hsd hed
    unfold filterTransactions
    rw [List.filter_eq_self]
    intro tx htx
    obtain ⟨hc, ht⟩ := hnone tx htx
    unfold txPasses
    rw [hrec, hsend, hmerch, hsd, hed, hc, ht]
    simp [truthy]

def rowsW : List LedgerRow :=
  [ { timestamp := 86400000, amount := .str "50", from_acct := some "B2", to_acct := some "A1" },
    { timestamp := 0, amount := .str "100", from_acct := some "A1", to_acct := some "B2" } ]

def resW : TxData := okResOf (getTransactionData "A1" (.ok rowsW) none)

def paramsW : AIParams := { summaryType := "count", category := some "groceries" }

/-- Witness for C4: a concrete fetched list passes a category-only filter
unchanged, and its head record has `none` category/transactionType. -/
theorem category_type_filters_vacuous_witness :
    getTransactionData "A1" (.ok rowsW) none = .ok resW ∧
    (∀ tx ∈ resW.transactions, tx.category = none ∧ tx.transactionType = none) ∧
    filterTransactions resW.transactions "u" paramsW = resW.transactions :=
  ⟨by with_unfolding_all rfl,
   fun tx htx => category_type_filters_vacuous.1 "A1" rowsW none resW
     (by with_unfolding_all rfl) tx htx,
   category_type_filters_vacuous.2 resW.transactions "u" paramsW
     (fun tx htx => category_type_filters_vacuous.1 "A1" rowsW none resW
       (by with_unfolding_all rfl) tx htx)
     rfl rfl rfl rfl rfl⟩

theorem getTransactionData_ok_exists (acct : String) (rows : List LedgerRow)
    (ur : Option (List UserRow)) (hacct : acct ≠ "") :
    ∃ res, getTransactionData acct (.ok rows) ur = .ok res := by
  have hne : (acct == "") = false := beq_eq_false_iff_ne.mpr hacct
  unfold getTransactionData
  simp only [hne, Bool.false_eq_true, if_false]
  split
  · exact ⟨_, rfl⟩
  · exact ⟨_, rfl⟩

/-- Claim C6: when the ledger query succeeds, an identity-store failure (or no
identity rows, or blank stored names) never fails the fetch: the result is
`.ok` with `accountOwner = "Unknown"`, and the transaction list is the full
normalized list — identical to what the same fetch returns with any
successfully resolved user row, one entry per ledger row. -/
theorem identity_failure_degrades_gracefully (acct : String) (rows : List LedgerRow)
    (ur : Option (List UserRow)) (hacct : acct ≠ "")
    (hid : ur = none ∨ ur = some [] ∨
      ∃ us, ur = some ({ firstname := "", lastname := "" } :: us)) :
    ∃ res, getTransactionData acct (.ok rows) ur = .ok res ∧
      res.accountOwner = "Unknown" ∧
      res.transactions = assignBalances acct 0 (rows.map (processRow acct)) ∧
      res.transactions.length = rows.length ∧
      ∀ u : UserRow, ∃ res2, getTransactionData acct (.ok rows) (some [u]) = .ok res2 ∧
        res2.transactions = res.transactions := by
  have hne : (acct == "") = false := beq_eq_false_iff_ne.mpr hacct
  have key : getTransactionData acct (.ok rows) ur = .ok
      { accountOwner := "Unknown", accountNumber := getLastFour (.str acct),
        transactions := assignBalances acct 0 (rows.map (processRow acct)) } := by
    rcases hid with rfl | rfl | ⟨us, rfl⟩ <;>
      · unfold getTransactionData
        simp only [hne, Bool.false_eq_true, if_false]
        split
        · next hcond =>
          have hnil : rows = [] := List.length_eq_zero.mp (beq_iff_eq.mp hcond)
          subst hnil
          rfl
        · rfl
  refine ⟨_, key, rfl, rfl, ?_, ?_⟩
  · show (assignBalances acct 0 (rows.map (processRow acct))).length = rows.length
    rw [assignBalances_length, List.length_map]
  · intro u
    obtain ⟨res2, hres2⟩ := getTransactionData_ok_exists acct rows (some [u]) hacct
    obtain ⟨_, htr2⟩ := getTransactionData_ok_inv acct rows (some [u]) res2 hres2
    exact ⟨res2, hres2, htr2⟩

/-- Witness for C6: identity store down, ledger store up, two transactions →
owner `"Unknown"` with a full two-element transaction list. -/
theorem identity_failure_degrades_gracefully_witness :
    ("A1" : String) ≠ "" ∧
    getTransactionData "A1" (.ok rowsW) none = .ok resW ∧
    resW.accountOwner = "Unknown" ∧
    resW.transactions.length = rowsW.length := by
  obtain ⟨res, hres, hown, _, hlen, _⟩ :=
    identity_failure_degrades_gracefully "A1" rowsW none (by decide) (Or.inl rfl)
  have hresW : res = resW := by
    have h2 : (Except.ok res : Except String TxData) = Except.ok resW := by
      rw [← hres]
      with_unfolding_all rfl
    injection h2
  exact ⟨by decide, by rw [← hresW]; exact hres, by rw [← hresW]; exact hown,
    by rw [← hresW]; exact hlen⟩

/-- The signed contribution of a normalized transaction to the running
balance: negative when this account is the source, positive otherwise. -/
def signedAmount (accountId : String) (tx : ProcessedTx) : Rat :=
  if tx.fromAccount == accountId then -tx.amount else tx.amount

theorem assignBalances_get? (accountId : String) :
    ∀ (l : List ProcessedTx) (b : Rat) (i : Nat) (tx : ProcessedTx),
      (assignBalances accountId b l).get? i = some tx →
      tx.balance = some (b + (((assignBalances accountId b l).take (i + 1)).map
        (signedAmount accountId)).sum) := by
  intro l
  induction l with
  | nil => intro b i tx h; simp [assignBalances] at h
  | cons t rest ih =>
    intro b i tx h
    simp only [assignBalances] at h ⊢
    cases i with
    | zero =>
      simp only [List.get?_cons_zero, Option.some_inj] at h
      subst h
      simp only [List.take_succ_cons, List.take_zero, List.map_cons, List.map_nil,
        List.sum_cons, List.sum_nil, signedAmount]
      rw [add_zero]
    | succ j =>
      simp only [List.get?_cons_succ] at h
      have hrec := ih _ j tx h
      rw [hrec]
      simp only [List.take_succ_cons, List.map_cons, List.sum_cons, signedAmount]
      congr 1
      ring

/-- Claim C1: in the list returned by `getTransactionData`, the running
balance attached at position `i` equals the sum of the signed amounts of the
transactions at positions `0..i` in the returned order (signed negative when
the transaction's `fromAccount` equals the requested account). -/
theorem getTransactionData_running_balance (acct : String) (rows : List LedgerRow)
    (ur : Option (List UserRow)) (res : TxData)
    (h : getTransactionData acct (.ok rows) ur = .ok res)
    (i : Nat) (tx : ProcessedTx) (hget : res.transactions.get? i = some tx) :
    tx.balance = some (((res.transactions.take (i + 1)).map (signedAmount acct)).sum) := by
  obtain ⟨_, htr⟩ := getTransactionData_ok_inv acct rows ur res h
  rw [htr] at hget ⊢
  rw [assignBalances_get? acct _ 0 i tx hget, zero_add]

def defaultTx : ProcessedTx :=
  { transactionDate := 0, formattedDate := "", amount := 0, fromAccount := "",
    toAccount := "", type := "", fromAccountLastFour := "", toAccountLastFour := "",
    formattedAmount := "" }

def tx1W : ProcessedTx := (resW.transactions.get? 1).getD defaultTx

/-- Witness for C1 on the spec scenario (descending: credit 50 then debit
100): the balance at position 1 is `50 - 100 = -50`, the prefix sum of signed
amounts. -/
theorem getTransactionData_running_balance_witness :
    getTransactionData "A1" (.ok rowsW) none = .ok resW ∧
    resW.transactions.get? 1 = some tx1W ∧
    tx1W.balance = some (((resW.transactions.take 2).map (signedAmount "A1")).sum) ∧
    tx1W.balance = some (-50) :=
  ⟨by with_unfolding_all rfl, by with_unfolding_all rfl,
   getTransactionData_running_balance "A1" rowsW none resW (by with_unfolding_all rfl) 1 tx1W
     (by with_unfolding_all rfl),
   by with_unfolding_all rfl⟩

theorem assignBalances_map_date (accountId : String) :
    ∀ (l : List ProcessedTx) (b : Rat),
      (assignBalances accountId b l).map (fun tx => tx.transactionDate) =
        l.map (fun tx => tx.transactionDate) := by
  intro l
  induction l with
  | nil => intro b; rfl
  | cons t rest ih =>
    intro b
    simp only [assignBalances, List.map_cons, ih]

theorem processRow_type (acct : String) (row : LedgerRow) :
    (processRow acct row).type =
      if row.from_acct == some acct then "Debit" else "Credit" := rfl

theorem processRow_fromAccount (acct : String) (row : LedgerRow) :
    (processRow acct row).fromAccount = row.from_acct.getD "" := rfl

/-- Claim C3: for a ledger query result (rows involving the account, ordered
by timestamp descending), `getTransactionData` returns the transaction list
in timestamp-descending order, and each entry's direction is `Debit` exactly
when the row's source account equals the requested account by exact string
match (and `Credit` otherwise). -/
theorem fetch_desc_order_and_direction (acct : String) (tbl : List LedgerRow)
    (ur : Option (List UserRow)) (res : TxData)
    (h : getTransactionData acct (.ok (ledgerQuery tbl acct)) ur = .ok res) :
    res.transactions.Pairwise (fun a b => b.transactionDate ≤ a.transactionDate) ∧
    ∀ tx ∈ res.transactions,
      (tx.type = "Debit" ∨ tx.type = "Credit") ∧
      (tx.type = "Debit" ↔ tx.fromAccount = acct) := by
  obtain ⟨hacct, htr⟩ := getTransactionData_ok_inv acct _ ur res h
  constructor
  · rw [htr]
    have hsorted : (ledgerQuery tbl acct).Pairwise rowGE :=
      List.sorted_insertionSort rowGE _
    have h1 : ((ledgerQuery tbl acct).map (processRow acct)).Pairwise
        (fun a b => b.transactionDate ≤ a.transactionDate) := by
      rw [List.pairwise_map]
      exact hsorted.imp (fun hab => hab)
    have h4 : (((ledgerQuery tbl acct).map (processRow acct)).map
        (fun tx => tx.transactionDate)).Pairwise (fun x y => y ≤ x) :=
      List.pairwise_map.mpr h1
    rw [← assignBalances_map_date acct ((ledgerQuery tbl acct).map (processRow acct)) 0] at h4
    exact List.pairwise_map.mp h4
  · intro tx htx
    rw [htr] at htx
    obtain ⟨tx0, htx0, hty, hfrom, _, _, _, _⟩ := assignBalances_mem acct _ 0 tx htx
    obtain ⟨row, _, rfl⟩ := List.mem_map.mp htx0
    constructor
    · rw [hty, processRow_type]
      by_cases hd : (row.from_acct == some acct) = true
      · left
        rw [if_pos hd]
      · right
        rw [if_neg (by simpa using hd)]
    · rw [hty, processRow_type, hfrom, processRow_fromAccount]
      cases hfa : row.from_acct with
      | none =>
        have hbeq : ((none : Option String) == some acct) = false := rfl
        rw [hbeq]
        simp only [Bool.false_eq_true, if_false, Option.getD_none]
        constructor
        · intro hcon
          exact absurd hcon (by decide)
        · intro hcon
          exact absurd hcon.symm hacct
      | some s =>
        simp only [Option.getD_some]
        by_cases hs : s = acct
        · subst hs
          rw [show ((some s : Option String) == some s) = true from beq_iff_eq.mpr rfl]
          simp
        · rw [show ((some s : Option String) == some acct) = false from
            beq_eq_false_iff_ne.mpr (by simpa using hs)]
          simp only [Bool.false_eq_true, if_false]
          constructor
          · intro hcon
            exact absurd hcon (by decide)
          · intro hcon
            exact absurd hcon hs

def tblW3 : List LedgerRow :=
  [ { timestamp := 0, amount := .str "100", from_acct := some "A1", to_acct := some "B2" },
    { timestamp := 86400000, amount := .str "50", from_acct := some "B2", to_acct := some "A1" },
    { timestamp := 5, amount := .str "7", from_acct := some "C3", to_acct := some "D4" } ]

def resW3 : TxData := okResOf (getTransactionData "A1" (.ok (ledgerQuery tblW3 "A1")) none)

/-- Witness for C3 on a concrete three-row table (one row not involving the
account): the fetched list is timestamp-descending and directions match. -/
theorem fetch_desc_order_and_direction_witness :
    getTransactionData "A1" (.ok (ledgerQuery tblW3 "A1")) none = .ok resW3 ∧
    resW3.transactions.Pairwise (fun a b => b.transactionDate ≤ a.transactionDate) ∧
    ∀ tx ∈ resW3.transactions,
      (tx.type = "Debit" ∨ tx.type = "Credit") ∧
      (tx.type = "Debit" ↔ tx.fromAccount = "A1") :=
  ⟨by with_unfolding_all rfl,
   (fetch_desc_order_and_direction "A1" tblW3 none resW3 (by with_unfolding_all rfl)).1,
   (fetch_desc_order_and_direction "A1" tblW3 none resW3 (by with_unfolding_all rfl)).2⟩
